import Mathlib

/-!
# Overdue classification and refresh scheduling of the to-do list

Shallow embedding of

* `packages/frontend/src/utils/dateUtils.js` (`isOverdue`), together with the part of the
  ECMAScript `Date` built-in that `isOverdue` calls (`new Date(string)`, `getTime`,
  `setHours`, `getHours`, `getMinutes`, the relational comparison of two dates);
* the effect of `packages/frontend/src/components/TodoList.js` (timer, window listeners and
  the `forceUpdateKey` state), as a step function on an explicit state.

Time values are integers counting milliseconds since the epoch; an invalid date (`NaN`) is
`none`.  The local time zone is a fixed offset in minutes east of UTC.
-/

namespace TodoApp

/-! ## ECMAScript time values -/

/-- Milliseconds per minute (ECMAScript `msPerMinute`). -/
def msPerMinute : Int := 60000

/-- Milliseconds per hour (ECMAScript `msPerHour`). -/
def msPerHour : Int := 3600000

/-- Milliseconds per day (ECMAScript `msPerDay`). -/
def msPerDay : Int := 86400000

/-- Largest magnitude of a valid time value (ECMAScript `TimeClip` bound, 8.64e15). -/
def maxTime : Int := 8640000000000000

/-- ECMAScript `TimeClip`: a time value beyond the representable range becomes `NaN`. -/
def timeClip (t : Int) : Option Int :=
  if t < -maxTime ∨ maxTime < t then none else some t

/-- ECMAScript `Day(t)`: the day number of a time value (floor division). -/
def day (t : Int) : Int := t / msPerDay

/-- ECMAScript `MakeTime(hour, min, sec, ms)`. -/
def makeTime (h m s ms : Int) : Int := h * msPerHour + m * msPerMinute + s * 1000 + ms

/-- ECMAScript `MakeDate(day, time)`. -/
def makeDate (d time : Int) : Int := d * msPerDay + time

/-- ECMAScript `DayFromYear(y)`: day number of 1 January of year `y`. -/
def dayFromYear (y : Int) : Int :=
  365 * (y - 1970) + (y - 1969) / 4 - (y - 1901) / 100 + (y - 1601) / 400

/-- ECMAScript `InLeapYear`, as a predicate on the year. -/
def isLeapYear (y : Int) : Bool :=
  (y % 4 == 0 && y % 100 != 0) || y % 400 == 0

/-- Number of days in month `m` (1 = January) of year `y`; 0 for a month outside 1..12. -/
def daysInMonth (y : Int) (m : Nat) : Nat :=
  match m with
  | 1 => 31
  | 2 => if isLeapYear y then 29 else 28
  | 3 => 31
  | 4 => 30
  | 5 => 31
  | 6 => 30
  | 7 => 31
  | 8 => 31
  | 9 => 30
  | 10 => 31
  | 11 => 30
  | 12 => 31
  | _ => 0

/-- Days of year `y` that precede month `m` (1 = January). -/
def daysBeforeMonth (y : Int) (m : Nat) : Nat :=
  ((List.range (m - 1)).map (fun i => daysInMonth y (i + 1))).sum

/-- ECMAScript `MakeDay` for a calendar date `y-m-d` with `m` in 1..12: its day number. -/
def makeDay (y : Int) (m d : Nat) : Int :=
  dayFromYear y + daysBeforeMonth y m + (d - 1 : Int)

/-- The host environment of a run: the local time-zone offset (minutes east of UTC, the
ECMAScript `LocalTZA` divided by `msPerMinute`) and the engine's implementation-defined
parser for strings outside the ECMAScript date-time string format. -/
structure Host where
  tzOffsetMin : Int
  parseOther : String → Option Int

/-- ECMAScript `LocalTZA` in milliseconds. -/
def Host.localTZA (host : Host) : Int := host.tzOffsetMin * msPerMinute

/-- ECMAScript `LocalTime(t)`. -/
def localTime (host : Host) (t : Int) : Int := t + host.localTZA

/-- ECMAScript `UTC(t)`. -/
def utcTime (host : Host) (t : Int) : Int := t - host.localTZA

/-- The method `Date.prototype.setHours(h, m, s, ms)` on a valid date with time value `t`:
the new time value, `none` when it leaves the representable range. -/
def setHours (host : Host) (t : Int) (h m s ms : Int) : Option Int :=
  timeClip (utcTime host (makeDate (day (localTime host t)) (makeTime h m s ms)))

/-- The method `Date.prototype.getHours()` on a valid date: `HourFromTime(LocalTime(t))`. -/
def getHours (host : Host) (t : Int) : Int := (localTime host t / msPerHour) % 24

/-- The method `Date.prototype.getMinutes()` on a valid date: `MinFromTime(LocalTime(t))`. -/
def getMinutes (host : Host) (t : Int) : Int := (localTime host t / msPerMinute) % 60

/-! ## Parsing a date string -/

/-- Value of a decimal digit character. -/
def digit? (c : Char) : Option Nat :=
  if c.isDigit then some (c.toNat - 48) else none

/-- Value of a run of two decimal digits. -/
def num2? (a b : Char) : Option Nat :=
  match digit? a, digit? b with
  | some x, some y => some (10 * x + y)
  | _, _ => none

/-- Value of a run of three decimal digits. -/
def num3? (a b c : Char) : Option Nat :=
  match digit? a, num2? b c with
  | some x, some y => some (100 * x + y)
  | _, _ => none

/-- Value of a run of four decimal digits. -/
def num4? (a b c d : Char) : Option Nat :=
  match num2? a b, num2? c d with
  | some x, some y => some (100 * x + y)
  | _, _ => none

/-- The date part `YYYY-MM-DD` of the ECMAScript date-time string format: the day number of
the calendar date, `none` unless the ten characters have that shape and name a date that
exists. -/
def parseYMD (cs : List Char) : Option Int :=
  match cs with
  | [y1, y2, y3, y4, s1, m1, m2, s2, d1, d2] =>
    if s1 = '-' ∧ s2 = '-' then
      match num4? y1 y2 y3 y4, num2? m1 m2, num2? d1 d2 with
      | some y, some m, some d =>
        if 1 ≤ m ∧ m ≤ 12 ∧ 1 ≤ d ∧ d ≤ daysInMonth y m then some (makeDay y m d) else none
      | _, _, _ => none
    else none
  | _ => none

/-- The time part `THH:mm`, `THH:mm:ss` or `THH:mm:ss.sss` of the date-time string format,
with an optional final `Z`: the milliseconds within the day and whether `Z` was present. -/
def parseHMS (cs : List Char) : Option (Int × Bool) :=
  let hm (t h1 h2 c m1 m2 : Char) : Option Int :=
    if t = 'T' ∧ c = ':' then
      match num2? h1 h2, num2? m1 m2 with
      | some h, some m => if h ≤ 23 ∧ m ≤ 59 then some (makeTime h m 0 0) else none
      | _, _ => none
    else none
  let sec (c s1 s2 : Char) : Option Int :=
    if c = ':' then
      match num2? s1 s2 with
      | some s => if s ≤ 59 then some (s * 1000) else none
      | none => none
    else none
  let frac (c f1 f2 f3 : Char) : Option Int :=
    if c = '.' then (num3? f1 f2 f3).map (fun f => (f : Int)) else none
  let zone (z : List Char) : Option Bool :=
    match z with
    | [] => some false
    | [c] => if c = 'Z' then some true else none
    | _ => none
  match cs with
  | t :: h1 :: h2 :: c1 :: m1 :: m2 :: rest =>
    match hm t h1 h2 c1 m1 m2 with
    | none => none
    | some a =>
      match rest with
      | c2 :: s1 :: s2 :: c3 :: f1 :: f2 :: f3 :: z =>
        match sec c2 s1 s2, frac c3 f1 f2 f3, zone z with
        | some b, some c, some u => some (a + b + c, u)
        | _, _, _ => none
      | c2 :: s1 :: s2 :: z =>
        match sec c2 s1 s2, zone z with
        | some b, some u => some (a + b, u)
        | _, _ => none
      | z => (zone z).map (fun u => (a, u))
  | _ => none

/-- The ECMAScript date-time string format, restricted to four-digit years and to the zone
designator `Z`: a date-only form is UTC, a date-time form without `Z` is local time. -/
def parseIso (host : Host) (s : String) : Option Int :=
  match parseYMD (s.data.take 10) with
  | none => none
  | some d =>
    match s.data.drop 10 with
    | [] => some (makeDate d 0)
    | rest =>
      match parseHMS rest with
      | none => none
      | some (time, true) => some (makeDate d time)
      | some (time, false) => some (utcTime host (makeDate d time))

/-- The function `Date.parse`: the empty string is not a date; a string of the date-time
string format has the value that format gives it; every other string is left to the
engine. -/
def dateParse (host : Host) (s : String) : Option Int :=
  match s.data with
  | [] => none
  | _ =>
    match parseIso host s with
    | some t => some t
    | none => host.parseOther s

/-- The constructor call `new Date(s)` followed by `getTime()`: the time value of the date
made from the string `s`, `none` for an invalid date. -/
def newDate (host : Host) (s : String) : Option Int :=
  (dateParse host s).bind timeClip

/-! ## The classifier `isOverdue` (dateUtils.js) -/

/-- The JavaScript values a todo's `completed` field is given: a boolean or a boolean-like
value. -/
inductive JsVal where
  | undefined
  | null
  | bool (b : Bool)
  | num (n : Int)
  | str (s : String)
  deriving DecidableEq, Repr

/-- JavaScript truthiness (`ToBoolean`). -/
def JsVal.truthy : JsVal → Bool
  | .undefined => false
  | .null => false
  | .bool b => b
  | .num n => n != 0
  | .str s => !s.data.isEmpty

/-- The values of a todo's `dueDate` field: `null`, absent (`undefined`) or a string. -/
inductive DueDate where
  | null
  | undefined
  | str (s : String)
  deriving DecidableEq, Repr

/-- JavaScript truthiness of a `dueDate`: only a non-empty string is truthy. -/
def DueDate.truthy : DueDate → Bool
  | .null => false
  | .undefined => false
  | .str s => !s.data.isEmpty

/-- The value of a todo's `id`.  `isOverdue` does one thing with it, the string conversion
of a template literal, so the values are told apart by what that conversion does: a string
(or a number, a boolean, an object with a working `toString`) that converts to the text `s`,
a Symbol, or an object whose conversion to a primitive throws `error`. -/
inductive IdValue where
  | text (s : String)
  | symbol (description : String)
  | throwing (error : String)
  deriving DecidableEq, Repr

/-- The string conversion (`ToString`) that a template literal applies to `todo.id`: the
text, or the error thrown.  A Symbol cannot be converted and throws a `TypeError`. -/
def IdValue.toText : IdValue → Except String String
  | .text s => .ok s
  | .symbol _ => .error "TypeError: Cannot convert a Symbol value to a string"
  | .throwing error => .error error

/-- The todo object read by `isOverdue`. -/
structure Todo where
  id : IdValue
  dueDate : DueDate
  completed : JsVal
  deriving DecidableEq, Repr

/-- How a call ends: it returns a boolean, or it throws an error to its caller. -/
inductive Completion where
  | returned (value : Bool)
  | threw (error : String)
  deriving DecidableEq, Repr

/-- What a call of `isOverdue` does: how it ends and the messages it passes to
`console.warn`, in order. -/
structure Outcome where
  completion : Completion
  warnings : List String
  deriving DecidableEq, Repr

/-- The relational comparison `now > endOfDueDate` of two dates: both are converted to their
time values and a comparison with `NaN` is false.  `now` is the valid date `new Date()`. -/
def dateGt (now : Int) (other : Option Int) : Bool :=
  match other with
  | none => false
  | some e => decide (now > e)

/-- The `try` block of `isOverdue` for the due-date string `s`: the outcome when the block
returns, or the error it throws.  The template literal is evaluated before `console.warn`
is called, so a throw leaves no message behind. -/
def tryBlock (host : Host) (clock : Int) (todo : Todo) (s : String) : Except String Outcome :=
  -- Rule 3: Check if past end of due date
  let now := clock
  match newDate host s with
  | none =>
    -- Validate date
    match todo.id.toText with
    | .ok idText =>
      .ok ⟨.returned false, ["Invalid due date format for todo " ++ idText ++ ": " ++ s]⟩
    | .error e => .error e
  | some t =>
    -- Set to end of day (11:59:59.999 PM)
    let endOfDueDate := setHours host t 23 59 59 999
    -- Rule 4: Overdue if current time > end of due date
    .ok ⟨.returned (dateGt now endOfDueDate), []⟩

/-- The `catch (error)` block of `isOverdue`: `console.warn` is given the template literal
and the error (shown here as one line, separated by a space) and the call returns false;
when the template literal throws, the error leaves the function. -/
def catchBlock (todo : Todo) (error : String) : Outcome :=
  match todo.id.toText with
  | .ok idText =>
    ⟨.returned false, ["Error calculating overdue status for todo " ++ idText ++ ": " ++ error]⟩
  | .error e => ⟨.threw e, []⟩

/-- The function `isOverdue(todo)` of dateUtils.js, run on a host whose clock reads `clock`
(the time value of `new Date()`). -/
def isOverdue (host : Host) (clock : Int) (todo : Todo) : Outcome :=
  -- Rule 1: No due date = not overdue
  if !todo.dueDate.truthy then ⟨.returned false, []⟩
  -- Rule 2: Completed todos are never overdue
  else if todo.completed.truthy then ⟨.returned false, []⟩
  else
    match todo.dueDate with
    | .str s =>
      match tryBlock host clock todo s with
      | .ok outcome => outcome
      | .error error => catchBlock todo error
    | _ => ⟨.returned false, []⟩

/-- A call `isOverdue(todo, now)` with a second argument: the function declares one
parameter, so the extra argument is evaluated and dropped, and the body runs as in
`isOverdue(todo)`. -/
def isOverdueWithArg (host : Host) (clock : Int) (todo : Todo) (_now : Option Int) : Outcome :=
  isOverdue host clock todo

/-! ## The refresh effect of `TodoList` (TodoList.js) -/

/-- The window events the effect listens to. -/
inductive EventKind where
  | click
  | keypress
  | focus
  deriving DecidableEq, Repr

/-- What the cleanup closure of one run of the effect captures: the interval id returned by
`setInterval` and the identity of that run's `handleInteraction` closure. -/
structure Handle where
  interval : Nat
  handler : Nat
  deriving DecidableEq, Repr

/-- The state the effect acts on: the active interval timers, the listeners registered on
`window` (event kind and callback identity), the handle of the mounted list (`none` when
the list is not mounted), a supply of fresh identities, and `forceUpdateKey`. -/
structure World where
  timers : List Nat
  listeners : List (EventKind × Nat)
  mounted : Option Handle
  fresh : Nat
  forceUpdateKey : Nat
  deriving DecidableEq, Repr

/-- The state before the list is first shown. -/
def World.init : World := ⟨[], [], none, 0, 0⟩

/-- The call `window.addEventListener(kind, callback)`: a listener that is already
registered with the same kind and callback is not added again. -/
def addEventListener (ls : List (EventKind × Nat)) (kind : EventKind) (cb : Nat) :
    List (EventKind × Nat) :=
  if (kind, cb) ∈ ls then ls else ls ++ [(kind, cb)]

/-- The call `window.removeEventListener(kind, callback)`. -/
def removeEventListener (ls : List (EventKind × Nat)) (kind : EventKind) (cb : Nat) :
    List (EventKind × Nat) :=
  ls.filter (fun l => l ≠ (kind, cb))

/-- The call `clearInterval(id)`. -/
def clearInterval (ts : List Nat) (id : Nat) : List Nat :=
  ts.filter (fun t => t ≠ id)

/-- The state updater `setForceUpdateKey(prev => prev + 1)`. -/
def bumpKey (w : World) : World := { w with forceUpdateKey := w.forceUpdateKey + 1 }

/-- The body of the effect: start the interval, create `handleInteraction` and register it
for click, keypress and focus; the returned handle is what the cleanup closure captures. -/
def runEffect (w : World) : World :=
  let interval := w.fresh
  let handler := w.fresh + 1
  let ls1 := addEventListener w.listeners .click handler
  let ls2 := addEventListener ls1 .keypress handler
  let ls3 := addEventListener ls2 .focus handler
  { w with
    timers := w.timers ++ [interval]
    listeners := ls3
    mounted := some ⟨interval, handler⟩
    fresh := w.fresh + 2 }

/-- The cleanup function returned by the effect. -/
def runCleanup (h : Handle) (w : World) : World :=
  let ls1 := removeEventListener w.listeners .click h.handler
  let ls2 := removeEventListener ls1 .keypress h.handler
  let ls3 := removeEventListener ls2 .focus h.handler
  { w with
    timers := clearInterval w.timers h.interval
    listeners := ls3
    mounted := none }

/-- The interval callback, run at a moment whose time value is `now`. -/
def intervalCallback (host : Host) (now : Int) (w : World) : World :=
  if getHours host now = 0 ∧ getMinutes host now = 0 then bumpKey w else w

/-- What happens to the list and its window. -/
inductive Event where
  | mount
  | unmount
  | tick (now : Int)
  | signal (kind : EventKind)
  deriving DecidableEq, Repr

/-- One step of the system.  React runs the effect (dependency list `[]`) once when the list
is mounted, with a fresh `forceUpdateKey` of 0, and runs its cleanup when the list is
unmounted.  A tick runs the callback of every active interval; a window event runs every
listener registered for its kind. -/
def step (host : Host) (w : World) : Event → World
  | .mount =>
    match w.mounted with
    | some _ => w
    | none => runEffect { w with forceUpdateKey := 0 }
  | .unmount =>
    match w.mounted with
    | some h => runCleanup h w
    | none => w
  | .tick now => w.timers.foldl (fun acc _ => intervalCallback host now acc) w
  | .signal kind =>
    (w.listeners.filter (fun l => l.1 = kind)).foldl (fun acc _ => bumpKey acc) w

/-- Run a sequence of events. -/
def run (host : Host) (w : World) (es : List Event) : World :=
  es.foldl (step host) w

/-! ## Date-only strings and the end of a calendar day -/

/-- The character of the last decimal digit of `n`. -/
def digitChar (n : Nat) : Char := Char.ofNat (48 + n % 10)

/-- The date-only string `YYYY-MM-DD` that names the calendar date `y-m-d`. -/
def isoDate (y m d : Nat) : String :=
  String.mk [digitChar (y / 1000), digitChar (y / 100), digitChar (y / 10), digitChar y, '-',
    digitChar (m / 10), digitChar m, '-', digitChar (d / 10), digitChar d]

/-- The calendar date `y-m-d` exists and has a four-digit year. -/
def validYMD (y m d : Nat) : Prop :=
  y ≤ 9999 ∧ 1 ≤ m ∧ m ≤ 12 ∧ 1 ≤ d ∧ d ≤ daysInMonth y m

instance (y m d : Nat) : Decidable (validYMD y m d) := by
  unfold validYMD
  infer_instance

/-- The end of the calendar day `y-m-d` in local time, in the words of the specification:
23:59:59.999 local time on that calendar date, as a time value. -/
def endOfDay (host : Host) (y m d : Nat) : Int :=
  utcTime host (makeDate (makeDay y m d) (makeTime 23 59 59 999))

/-- The local calendar day (day number) on which the moment `t` falls. -/
def localDay (host : Host) (t : Int) : Int := day (localTime host t)

/-- A tick of the interval or a user-activity signal: the events that can reach the list
from outside once it exists. -/
inductive Stimulus where
  | tick (now : Int)
  | signal (kind : EventKind)
  deriving DecidableEq, Repr

/-- The event a stimulus is. -/
def Stimulus.toEvent : Stimulus → Event
  | .tick now => .tick now
  | .signal kind => .signal kind

/-- The registrations a state may hold: none while the list is not mounted; while it is
mounted, the one interval and the three listeners of the current run of the effect. -/
def registered (w : World) : Prop :=
  match w.mounted with
  | none => w.timers = [] ∧ w.listeners = []
  | some h =>
    w.timers = [h.interval] ∧
    w.listeners = [(.click, h.handler), (.keypress, h.handler), (.focus, h.handler)]

/-! ## The periodic tick and the status the list shows -/

/-- The delay passed to `setInterval` by the effect, in milliseconds. -/
def tickDelay : Int := 60000

/-- The moment of the `n`-th tick of an interval started at the moment `start`, the moment
the effect calls `setInterval`; the callback runs at ticks 1, 2, ... and not at `start`. -/
def tickTime (start : Int) (n : Nat) : Int := start + n * tickDelay

/-- The list as one todo's reader sees it: the state of the effect and the overdue status
computed at the last render. -/
structure View where
  world : World
  shown : Outcome
  deriving DecidableEq, Repr

/-- The first render of the list, at the moment `render`: the status is computed from the
clock; the effect runs after the render. -/
def firstRender (host : Host) (todo : Todo) (render : Int) : View :=
  ⟨step host World.init .mount, isOverdue host render todo⟩

/-- A tick at the moment `now`: the interval callback runs, and the list is rendered again,
the status being recomputed from the clock, exactly when `forceUpdateKey` has changed. -/
def tickRender (host : Host) (todo : Todo) (v : View) (now : Int) : View :=
  let w := step host v.world (.tick now)
  if w.forceUpdateKey = v.world.forceUpdateKey then ⟨w, v.shown⟩
  else ⟨w, isOverdue host now todo⟩

/-- The view after `n` ticks of a list that is first rendered at the moment `render` and
whose effect starts the interval at the moment `start`. -/
def gatedView (host : Host) (todo : Todo) (render start : Int) : Nat → View
  | 0 => firstRender host todo render
  | n + 1 => tickRender host todo (gatedView host todo render start n) (tickTime start (n + 1))

/-- The status shown after `n` ticks under the strategy the specification calls simpler,
in its words "fire the recompute signal on every tick": before the first tick the status
of the first render, afterwards the status computed at the moment of the latest tick. -/
def everyTickShown (host : Host) (todo : Todo) (render start : Int) : Nat → Outcome
  | 0 => isOverdue host render todo
  | n + 1 => isOverdue host (tickTime start (n + 1)) todo

/-! ## Concrete hosts and moments used in the examples -/

/-- A host at UTC whose engine parses nothing beyond the date-time string format. -/
def hostUTC : Host := ⟨0, fun _ => none⟩

/-- A host five hours west of UTC (UTC-05:00). -/
def hostWest5 : Host := ⟨-300, fun _ => none⟩

/-- A host eight hours west of UTC (UTC-08:00). -/
def hostWest8 : Host := ⟨-480, fun _ => none⟩

/-- The time value of 2025-11-13T12:00:00Z, the clock of the test suite. -/
def noon13Nov2025 : Int := 1763035200000

/-- The time value of 2025-11-13T23:59:00Z, the clock of the end-of-day test. -/
def late13Nov2025 : Int := 1763078340000

/-- The time value of 2025-11-01T00:00:00Z. -/
def start1Nov2025 : Int := 1761955200000

/-- The time value of 2025-11-13T05:00:00Z, which is 00:00 local time five hours west of
UTC. -/
def midnightWest5 : Int := 1763010000000

/-- The time value of 2025-11-13T00:00:00Z, midnight at UTC. -/
def midnight13Nov2025 : Int := 1762992000000

/-! ## Lemmas on parsing and on the end-of-day boundary -/

theorem digit_digitChar (n : Nat) : digit? (digitChar n) = some (n % 10) := by
  have h : n % 10 < 10 := Nat.mod_lt _ (by decide)
  unfold digitChar
  generalize n % 10 = k at h
  interval_cases k <;> rfl

theorem num2_digitChar (n : Nat) :
    num2? (digitChar (n / 10)) (digitChar n) = some (n % 100) := by
  simp only [num2?, digit_digitChar]
  congr 1
  omega

theorem num4_digitChar (n : Nat) :
    num4? (digitChar (n / 1000)) (digitChar (n / 100)) (digitChar (n / 10)) (digitChar n)
      = some (n % 10000) := by
  have h1 : n / 1000 = n / 100 / 10 := by omega
  simp only [num4?, h1, num2_digitChar]
  congr 1
  omega

theorem daysInMonth_le (y : Int) (m : Nat) : daysInMonth y m ≤ 31 := by
  unfold daysInMonth
  split <;> try decide
  split <;> decide

theorem parseYMD_isoDate (y m d : Nat) (h : validYMD y m d) :
    parseYMD (isoDate y m d).data = some (makeDay y m d) := by
  obtain ⟨hy, hm1, hm2, hd1, hd2⟩ := h
  have hd3 : d ≤ 31 := le_trans hd2 (daysInMonth_le y m)
  have e1 : y % 10000 = y := by omega
  have e2 : m % 100 = m := by omega
  have e3 : d % 100 = d := by omega
  simp only [isoDate, parseYMD, num4_digitChar, num2_digitChar, e1, e2, e3]
  simp [hm1, hm2, hd1, hd2]

theorem daysBeforeMonth_le (y : Int) (m : Nat) (hm : m ≤ 12) : daysBeforeMonth y m ≤ 335 := by
  have h2 : daysInMonth y 2 ≤ 29 := by
    show (if isLeapYear y then 29 else 28) ≤ 29
    split <;> decide
  interval_cases m <;>
    simp [daysBeforeMonth, List.range_succ, daysInMonth] <;>
    simp only [daysInMonth] at h2 <;> omega

theorem makeDay_bounds (y m d : Nat) (h : validYMD y m d) :
    -719528 ≤ makeDay y m d ∧ makeDay y m d ≤ 2932900 := by
  obtain ⟨hy, hm1, hm2, hd1, hd2⟩ := h
  have hd3 : d ≤ 31 := le_trans hd2 (daysInMonth_le y m)
  have hb := daysBeforeMonth_le y m hm2
  unfold makeDay dayFromYear
  constructor <;> omega

theorem newDate_isoDate (host : Host) (y m d : Nat) (h : validYMD y m d) :
    newDate host (isoDate y m d) = some (makeDay y m d * msPerDay) := by
  have hb := makeDay_bounds y m d h
  have hp := parseYMD_isoDate y m d h
  have hdata : (isoDate y m d).data.take 10 = (isoDate y m d).data := by simp [isoDate]
  have hdrop : (isoDate y m d).data.drop 10 = [] := by simp [isoDate]
  have hiso : parseIso host (isoDate y m d) = some (makeDay y m d * msPerDay) := by
    simp [parseIso, hdata, hp, hdrop, makeDate]
  have hne : (isoDate y m d).data ≠ [] := by simp [isoDate]
  have hparse : dateParse host (isoDate y m d) = some (makeDay y m d * msPerDay) := by
    unfold dateParse
    split
    · contradiction
    · simp [hiso]
  simp only [newDate, hparse, Option.some_bind, timeClip, msPerDay, maxTime]
  rw [if_neg]
  omega

theorem isoDate_truthy (y m d : Nat) : (DueDate.str (isoDate y m d)).truthy = true := by
  simp [DueDate.truthy, isoDate]

/-- What `isOverdue` computes for an incomplete todo whose due date parses: the comparison of
the clock with the parsed instant moved to 23:59:59.999 of its own local day. -/
theorem isOverdue_of_parsed (host : Host) (clock : Int) (id : IdValue) (s : String)
    (completed : JsVal) (t : Int) (hc : completed.truthy = false)
    (ht : newDate host s = some t) :
    isOverdue host clock ⟨id, .str s, completed⟩
      = ⟨.returned (dateGt clock (setHours host t 23 59 59 999)), []⟩ := by
  have hne : s.data ≠ [] := by
    intro h
    simp [newDate, dateParse, h] at ht
  have htr : (DueDate.str s).truthy = true := by
    cases hs : s.data with
    | nil => exact absurd hs hne
    | cons a l => simp [DueDate.truthy, hs]
  simp [isOverdue, tryBlock, htr, hc, ht]

/-- Rules 1 and 2: with a truthy `completed` value the call returns false before the due
date is parsed. -/
theorem isOverdue_of_truthy_completed (host : Host) (clock : Int) (todo : Todo)
    (hc : todo.completed.truthy = true) :
    isOverdue host clock todo = ⟨.returned false, []⟩ := by
  unfold isOverdue
  split
  · rfl
  · simp [hc]

/-- East of UTC (and at UTC) the boundary used for a date-only due date is the end of the
due day itself. -/
theorem isOverdue_isoDate_east (host : Host) (clock : Int) (id : IdValue)
    (completed : JsVal) (y m d : Nat) (h : validYMD y m d) (hc : completed.truthy = false)
    (h0 : 0 ≤ host.tzOffsetMin) (h1 : host.tzOffsetMin < 1440) :
    isOverdue host clock ⟨id, .str (isoDate y m d), completed⟩
      = ⟨.returned (decide (clock > endOfDay host y m d)), []⟩ := by
  have hb := makeDay_bounds y m d h
  rw [isOverdue_of_parsed host clock id _ completed _ hc (newDate_isoDate host y m d h)]
  have hday : day (localTime host (makeDay y m d * msPerDay)) = makeDay y m d := by
    simp only [day, localTime, Host.localTZA, msPerDay, msPerMinute]
    omega
  simp only [setHours, hday, endOfDay, timeClip]
  rw [if_neg]
  · rfl
  · simp only [utcTime, makeDate, makeTime, Host.localTZA, msPerDay, msPerMinute, msPerHour,
      maxTime]
    omega

/-- West of UTC the boundary used for a date-only due date is the end of the day before the
due day. -/
theorem isOverdue_isoDate_west (host : Host) (clock : Int) (id : IdValue)
    (completed : JsVal) (y m d : Nat) (h : validYMD y m d) (hc : completed.truthy = false)
    (h0 : -1440 < host.tzOffsetMin) (h1 : host.tzOffsetMin < 0) :
    isOverdue host clock ⟨id, .str (isoDate y m d), completed⟩
      = ⟨.returned (decide (clock > endOfDay host y m d - msPerDay)), []⟩ := by
  have hb := makeDay_bounds y m d h
  rw [isOverdue_of_parsed host clock id _ completed _ hc (newDate_isoDate host y m d h)]
  have hday : day (localTime host (makeDay y m d * msPerDay)) = makeDay y m d - 1 := by
    simp only [day, localTime, Host.localTZA, msPerDay, msPerMinute]
    omega
  have hend : utcTime host (makeDate (makeDay y m d - 1) (makeTime 23 59 59 999))
      = endOfDay host y m d - msPerDay := by
    simp only [endOfDay, utcTime, makeDate, msPerDay]
    ring
  simp only [setHours, hday, hend, timeClip]
  rw [if_neg]
  · rfl
  · simp only [endOfDay, utcTime, makeDate, makeTime, Host.localTZA, msPerDay, msPerMinute,
      msPerHour, maxTime]
    omega

/-! ## The classifier: claims -/

/-- C1 (the code departs from the claim): on a host eight hours west of UTC, at
2025-11-13T12:00:00Z (04:00 local time on 13 November), the incomplete todo due
"2025-11-13" is reported overdue although the clock has not passed 23:59:59.999 local time
of 13 November. -/
theorem isOverdue_before_end_of_due_day_west8 :
    isoDate 2025 11 13 = "2025-11-13" ∧
    noon13Nov2025 ≤ endOfDay hostWest8 2025 11 13 ∧
    isOverdue hostWest8 noon13Nov2025 ⟨.text "2", .str "2025-11-13", .bool false⟩
      = ⟨.returned true, []⟩ := by
  decide

/-- C2 (the code departs from the claim): on a host five hours west of UTC, at
2025-11-13T23:59:00Z (18:59 local time on 13 November), the incomplete todo due today,
"2025-11-13", is reported overdue. -/
theorem isOverdue_due_today_west5 :
    isoDate 2025 11 13 = "2025-11-13" ∧
    localDay hostWest5 late13Nov2025 = makeDay 2025 11 13 ∧
    isOverdue hostWest5 late13Nov2025 ⟨.text "8", .str "2025-11-13", .bool false⟩
      = ⟨.returned true, []⟩ := by
  decide

/-- C3: an incomplete todo whose due date is a date-only string naming a calendar day
strictly earlier than the local calendar day of the clock is overdue, in every time zone
whose offset from UTC is less than a day, and no diagnostic is emitted. -/
theorem isOverdue_past_due_day (host : Host) (clock : Int) (id : IdValue)
    (completed : JsVal)
    (y m d : Nat) (h : validYMD y m d) (hc : completed.truthy = false)
    (h0 : -1440 < host.tzOffsetMin) (h1 : host.tzOffsetMin < 1440)
    (hpast : makeDay y m d < localDay host clock) :
    isOverdue host clock ⟨id, .str (isoDate y m d), completed⟩ = ⟨.returned true, []⟩ := by
  have hb := makeDay_bounds y m d h
  rw [isOverdue_of_parsed host clock id _ completed _ hc (newDate_isoDate host y m d h)]
  simp only [localDay, day, localTime, Host.localTZA, msPerDay, msPerMinute] at hpast
  have hclip : ¬ (utcTime host (makeDate (day (localTime host (makeDay y m d * msPerDay)))
        (makeTime 23 59 59 999)) < -maxTime ∨
      maxTime < utcTime host (makeDate (day (localTime host (makeDay y m d * msPerDay)))
        (makeTime 23 59 59 999))) := by
    simp only [utcTime, makeDate, makeTime, day, localTime, Host.localTZA, msPerDay,
      msPerMinute, msPerHour, maxTime]
    omega
  have hgt : clock > utcTime host (makeDate (day (localTime host (makeDay y m d * msPerDay)))
      (makeTime 23 59 59 999)) := by
    simp only [utcTime, makeDate, makeTime, day, localTime, Host.localTZA, msPerDay,
      msPerMinute, msPerHour]
    omega
  simp only [setHours, timeClip, if_neg hclip, dateGt, decide_eq_true hgt]

/-- Witness of C3: the todo due "2025-11-10", seen at 2025-11-13T12:00:00Z five hours west
of UTC. -/
theorem isOverdue_past_due_day_witness :
    isOverdue hostWest5 noon13Nov2025 ⟨.text "1", .str (isoDate 2025 11 10), .bool false⟩
      = ⟨.returned true, []⟩ :=
  isOverdue_past_due_day hostWest5 noon13Nov2025 (.text "1") (.bool false) 2025 11 10
    (by decide) (by decide) (by decide) (by decide) (by decide)

/-- C4: a todo whose `completed` value is truthy is not overdue, whatever its due date and
whatever the clock reads, and no diagnostic is emitted. -/
theorem isOverdue_completed (host : Host) (clock : Int) (todo : Todo)
    (hc : todo.completed.truthy = true) :
    isOverdue host clock todo = ⟨.returned false, []⟩ := by
  cases hd : todo.dueDate.truthy with
  | false => simp [isOverdue, hd]
  | true => simp [isOverdue, hd, hc]

/-- Witness of C4: `completed` is the number 1 and the due date is long past. -/
theorem isOverdue_completed_witness :
    (JsVal.num 1).truthy = true ∧
    isOverdue hostUTC noon13Nov2025 ⟨.text "4", .str "2025-11-10", .num 1⟩ = ⟨.returned false, []⟩ :=
  ⟨by decide, isOverdue_completed hostUTC noon13Nov2025 ⟨.text "4", .str "2025-11-10", .num 1⟩
    (by decide)⟩

/-- C5: a todo whose due date is `null` or absent is not overdue, for every clock reading
and every `completed` value, and no diagnostic is emitted. -/
theorem isOverdue_no_due_date (host : Host) (clock : Int) (id : IdValue)
    (completed : JsVal) :
    isOverdue host clock ⟨id, .null, completed⟩ = ⟨.returned false, []⟩ ∧
    isOverdue host clock ⟨id, .undefined, completed⟩ = ⟨.returned false, []⟩ := by
  constructor <;> simp [isOverdue, DueDate.truthy]

/-- For an incomplete todo whose due date is a non-empty string that does not make a valid
date and whose id converts to the text `idText`, the call returns false and emits exactly
one diagnostic, the text "Invalid due date format for todo " followed by the id, ": " and
the raw due date. -/
theorem isOverdue_invalid_due_date_text_id (host : Host) (clock : Int) (idText s : String)
    (completed : JsVal) (hs : s ≠ "") (hc : completed.truthy = false)
    (hbad : newDate host s = none) :
    isOverdue host clock ⟨.text idText, .str s, completed⟩
      = ⟨.returned false, ["Invalid due date format for todo " ++ idText ++ ": " ++ s]⟩ := by
  have htr : (DueDate.str s).truthy = true := by
    cases hd : s.data with
    | nil => exact absurd (String.ext hd) hs
    | cons a l => simp [DueDate.truthy, hd]
  simp [isOverdue, tryBlock, IdValue.toText, htr, hc, hbad]

/-- The todo of the test suite, id 9 and due date "invalid-date". -/
theorem isOverdue_invalid_due_date_text_id_example :
    isOverdue hostUTC noon13Nov2025 ⟨.text "9", .str "invalid-date", .bool false⟩
      = ⟨.returned false, ["Invalid due date format for todo 9: invalid-date"]⟩ :=
  isOverdue_invalid_due_date_text_id hostUTC noon13Nov2025 "9" "invalid-date" (.bool false)
    (by decide) (by decide) (by decide)

/-- For an incomplete todo whose due date is a non-empty string that does not make a valid
date and whose id cannot be converted to a string, the call throws the conversion error
and emits no diagnostic: the error thrown in the `try` block is caught, and the template
literal of the `catch` block throws it again. -/
theorem isOverdue_invalid_due_date_throwing_id (host : Host) (clock : Int) (id : IdValue)
    (e s : String) (completed : JsVal) (hs : s ≠ "") (hc : completed.truthy = false)
    (hbad : newDate host s = none) (hid : id.toText = .error e) :
    isOverdue host clock ⟨id, .str s, completed⟩ = ⟨.threw e, []⟩ := by
  have htr : (DueDate.str s).truthy = true := by
    cases hd : s.data with
    | nil => exact absurd (String.ext hd) hs
    | cons a l => simp [DueDate.truthy, hd]
  simp [isOverdue, tryBlock, catchBlock, hid, htr, hc, hbad]

/-- C6 (the code departs from the claim): for the incomplete todo whose id is the Symbol
`Symbol('x')` and whose due date is "invalid-date", the call throws a `TypeError` and emits
no diagnostic, where the claim says it returns false with exactly one diagnostic. -/
theorem isOverdue_invalid_due_date_symbol_id_throws :
    newDate hostUTC "invalid-date" = none ∧
    isOverdue hostUTC noon13Nov2025 ⟨.symbol "x", .str "invalid-date", .bool false⟩
      = ⟨.threw "TypeError: Cannot convert a Symbol value to a string", []⟩ := by
  decide

/-- C7 (the claim as stated fails): the same todo and the same supplied moment give
different results under two readings of the ambient clock. -/
theorem isOverdue_depends_on_ambient_clock :
    (isOverdueWithArg hostUTC noon13Nov2025 ⟨.text "1", .str "2025-11-10", .bool false⟩
        (some noon13Nov2025)) = ⟨.returned true, []⟩ ∧
    (isOverdueWithArg hostUTC start1Nov2025 ⟨.text "1", .str "2025-11-10", .bool false⟩
        (some noon13Nov2025)) = ⟨.returned false, []⟩ := by
  decide

/-- C7 (amended): the outcome of `isOverdue(item, now)` does not depend on the supplied
moment: for a fixed item, host and ambient clock reading it is the outcome of
`isOverdue(item)`, and for an incomplete item whose due date parses, the moment compared
with the end-of-day boundary is the ambient clock reading. -/
theorem isOverdue_ignores_supplied_now (host : Host) (clock : Int) (todo : Todo)
    (now1 now2 : Option Int) :
    isOverdueWithArg host clock todo now1 = isOverdueWithArg host clock todo now2 ∧
    isOverdueWithArg host clock todo now1 = isOverdue host clock todo ∧
    ∀ s t, todo.dueDate = .str s → todo.completed.truthy = false → newDate host s = some t →
      isOverdueWithArg host clock todo now1
        = ⟨.returned (dateGt clock (setHours host t 23 59 59 999)), []⟩ := by
  refine ⟨rfl, rfl, ?_⟩
  intro s t hs hc ht
  obtain ⟨id, due, completed⟩ := todo
  simp only at hs hc
  subst hs
  exact isOverdue_of_parsed host clock id s completed t hc ht

/-- Witness of C7 (amended): the todo due "2025-11-10" with the supplied moment
2025-11-01T00:00:00Z is overdue when the ambient clock reads 2025-11-13T12:00:00Z. -/
theorem isOverdue_ignores_supplied_now_witness :
    isOverdueWithArg hostUTC noon13Nov2025 ⟨.text "1", .str "2025-11-10", .bool false⟩
        (some start1Nov2025) = ⟨.returned true, []⟩ :=
  (isOverdue_ignores_supplied_now hostUTC noon13Nov2025
    ⟨.text "1", .str "2025-11-10", .bool false⟩ (some start1Nov2025) none).2.2
    "2025-11-10" 1762732800000 rfl (by decide) (by decide)

/-- C8: two due dates that parse to instants on the same local calendar day give the same
outcome, for every clock reading and every `completed` value. -/
theorem isOverdue_same_local_day (host : Host) (clock : Int) (id : IdValue)
    (s1 s2 : String)
    (completed : JsVal) (t1 t2 : Int)
    (h1 : newDate host s1 = some t1) (h2 : newDate host s2 = some t2)
    (hday : localDay host t1 = localDay host t2) :
    isOverdue host clock ⟨id, .str s1, completed⟩
      = isOverdue host clock ⟨id, .str s2, completed⟩ := by
  cases hc : completed.truthy with
  | true =>
    rw [isOverdue_of_truthy_completed host clock ⟨id, .str s1, completed⟩ hc,
      isOverdue_of_truthy_completed host clock ⟨id, .str s2, completed⟩ hc]
  | false =>
    rw [isOverdue_of_parsed host clock id s1 completed t1 hc h1,
      isOverdue_of_parsed host clock id s2 completed t2 hc h2]
    simp only [localDay] at hday
    simp only [setHours, hday]

/-- Witness of C8: 08:00Z and 15:30Z of 13 November 2025, five hours west of UTC. -/
theorem isOverdue_same_local_day_witness :
    isOverdue hostWest5 noon13Nov2025 ⟨.text "3", .str "2025-11-13T08:00:00Z", .bool false⟩
      = isOverdue hostWest5 noon13Nov2025 ⟨.text "3", .str "2025-11-13T15:30:00Z", .bool false⟩ :=
  isOverdue_same_local_day hostWest5 noon13Nov2025 (.text "3") "2025-11-13T08:00:00Z"
    "2025-11-13T15:30:00Z" (.bool false) 1763020800000 1763047800000
    (by decide) (by decide) (by decide)

/-! ## The refresh effect: invariant and claims -/

/-- Running callbacks that leave the registrations alone leaves them alone. -/
theorem foldl_frame {α : Type} (f : World → World)
    (hf : ∀ w, (f w).timers = w.timers ∧ (f w).listeners = w.listeners ∧
      (f w).mounted = w.mounted)
    (l : List α) (w : World) :
    (l.foldl (fun acc _ => f acc) w).timers = w.timers ∧
    (l.foldl (fun acc _ => f acc) w).listeners = w.listeners ∧
    (l.foldl (fun acc _ => f acc) w).mounted = w.mounted := by
  induction l generalizing w with
  | nil => exact ⟨rfl, rfl, rfl⟩
  | cons a l ih =>
    obtain ⟨h1, h2, h3⟩ := ih (f w)
    obtain ⟨g1, g2, g3⟩ := hf w
    exact ⟨h1.trans g1, h2.trans g2, h3.trans g3⟩

theorem bumpKey_frame (w : World) :
    (bumpKey w).timers = w.timers ∧ (bumpKey w).listeners = w.listeners ∧
      (bumpKey w).mounted = w.mounted :=
  ⟨rfl, rfl, rfl⟩

theorem intervalCallback_frame (host : Host) (now : Int) (w : World) :
    (intervalCallback host now w).timers = w.timers ∧
    (intervalCallback host now w).listeners = w.listeners ∧
    (intervalCallback host now w).mounted = w.mounted := by
  unfold intervalCallback
  split
  · exact bumpKey_frame w
  · exact ⟨rfl, rfl, rfl⟩

theorem registered_of_frame (w v : World) (h : registered w)
    (hf : v.timers = w.timers ∧ v.listeners = w.listeners ∧ v.mounted = w.mounted) :
    registered v := by
  obtain ⟨h1, h2, h3⟩ := hf
  unfold registered at h ⊢
  rw [h1, h2, h3]
  exact h

theorem registered_step (host : Host) (w : World) (e : Event) (h : registered w) :
    registered (step host w e) := by
  cases e with
  | mount =>
    cases hm : w.mounted with
    | some hd => simpa [step, hm] using h
    | none =>
      simp only [registered, hm] at h
      simp [step, hm, registered, runEffect, addEventListener, h.1, h.2]
  | unmount =>
    cases hm : w.mounted with
    | none => simpa [step, hm] using h
    | some hd =>
      simp only [registered, hm] at h
      simp [step, hm, registered, runCleanup, clearInterval, removeEventListener, h.1, h.2]
  | tick now =>
    exact registered_of_frame w _ h
      (foldl_frame (intervalCallback host now) (intervalCallback_frame host now) _ w)
  | signal kind =>
    exact registered_of_frame w _ h (foldl_frame bumpKey bumpKey_frame _ w)

theorem registered_run (host : Host) (es : List Event) (w : World) (h : registered w) :
    registered (run host w es) := by
  induction es generalizing w with
  | nil => exact h
  | cons e es ih => exact ih (step host w e) (registered_step host w e h)

theorem registered_init : registered World.init := by
  simp [registered, World.init]

/-- With nothing registered, ticks and activity signals leave the whole state unchanged. -/
theorem run_stimuli_released (host : Host) (w : World) (ht : w.timers = [])
    (hl : w.listeners = []) (ss : List Stimulus) :
    run host w (ss.map Stimulus.toEvent) = w := by
  induction ss with
  | nil => rfl
  | cons a ss ih =>
    have hstep : step host w a.toEvent = w := by
      cases a <;> simp [Stimulus.toEvent, step, ht, hl]
    simp only [List.map_cons, run, List.foldl_cons, hstep]
    exact ih

/-- C9: after any sequence of mounts, unmounts, ticks and signals the state holds exactly
the registrations of the current mount (one interval, one listener per event kind, none
twice) and none at all when the list is not mounted; and once the cleanup has run, the
interval and the three listeners are gone and no later tick or activity signal changes
`forceUpdateKey`. -/
theorem cleanup_releases_all (host : Host) (es : List Event) (ss : List Stimulus) :
    registered (run host World.init es) ∧
    (run host World.init es).timers.Nodup ∧
    (run host World.init es).listeners.Nodup ∧
    (step host (run host World.init es) .unmount).mounted = none ∧
    (step host (run host World.init es) .unmount).timers = [] ∧
    (step host (run host World.init es) .unmount).listeners = [] ∧
    (run host (step host (run host World.init es) .unmount)
        (ss.map Stimulus.toEvent)).forceUpdateKey
      = (step host (run host World.init es) .unmount).forceUpdateKey := by
  have hreg := registered_run host es World.init registered_init
  have hreg2 := registered_step host _ .unmount hreg
  have hun : (step host (run host World.init es) .unmount).mounted = none := by
    cases hm : (run host World.init es).mounted with
    | none => simp [step, hm]
    | some hd => simp [step, hm, runCleanup]
  have hempty : (step host (run host World.init es) .unmount).timers = [] ∧
      (step host (run host World.init es) .unmount).listeners = [] := by
    simpa [registered, hun] using hreg2
  refine ⟨hreg, ?_, ?_, hun, hempty.1, hempty.2, ?_⟩
  · cases hm : (run host World.init es).mounted with
    | none =>
      simp only [registered, hm] at hreg
      simp [hreg.1]
    | some hd =>
      simp only [registered, hm] at hreg
      simp [hreg.1]
  · cases hm : (run host World.init es).mounted with
    | none =>
      simp only [registered, hm] at hreg
      simp [hreg.2]
    | some hd =>
      simp only [registered, hm] at hreg
      simp [hreg.2]
  · rw [run_stimuli_released host _ hempty.1 hempty.2 ss]

/-- C10: while the list is mounted, a click, a keypress or a window focus event increments
`forceUpdateKey` by exactly 1 and changes nothing else; the time of day plays no part. -/
theorem signal_bumps_key (host : Host) (es : List Event) (kind : EventKind)
    (hm : (run host World.init es).mounted.isSome = true) :
    step host (run host World.init es) (.signal kind) = bumpKey (run host World.init es) ∧
    (step host (run host World.init es) (.signal kind)).forceUpdateKey
      = (run host World.init es).forceUpdateKey + 1 := by
  have hreg := registered_run host es World.init registered_init
  cases hw : (run host World.init es).mounted with
  | none => simp [hw] at hm
  | some hd =>
    simp only [registered, hw] at hreg
    have hstep : step host (run host World.init es) (.signal kind)
        = bumpKey (run host World.init es) := by
      cases kind <;> simp [step, hreg.2]
    exact ⟨hstep, by rw [hstep]; rfl⟩

/-- Witness of C10: the list is mounted, clicked twice, and then receives a keypress. -/
theorem signal_bumps_key_witness :
    (step hostUTC (run hostUTC World.init [.mount, .signal .click, .signal .click])
        (.signal .keypress)).forceUpdateKey = 3 :=
  (signal_bumps_key hostUTC [.mount, .signal .click, .signal .click] .keypress
    (by decide)).2

/-! ## The periodic tick: lemmas and claims -/

/-- While the list is mounted a tick runs the interval callback exactly once. -/
theorem step_tick_of_mounted (host : Host) (w : World) (now : Int) (h : Handle)
    (hreg : registered w) (hm : w.mounted = some h) :
    step host w (.tick now) = intervalCallback host now w := by
  simp only [registered, hm] at hreg
  simp [step, hreg.1]

/-- Between two moments one tick delay apart the outcome of `isOverdue` can change only if
the later moment lies in the minute 00:00 local time. -/
theorem isOverdue_tick_stable (host : Host) (t : Int) (todo : Todo)
    (hg : ¬ (getHours host t = 0 ∧ getMinutes host t = 0)) :
    isOverdue host t todo = isOverdue host (t - tickDelay) todo := by
  obtain ⟨id, due, completed⟩ := todo
  cases due with
  | null => simp [isOverdue, DueDate.truthy]
  | undefined => simp [isOverdue, DueDate.truthy]
  | str s =>
    cases hc : completed.truthy with
    | true =>
      rw [isOverdue_of_truthy_completed host t ⟨id, .str s, completed⟩ hc,
        isOverdue_of_truthy_completed host (t - tickDelay) ⟨id, .str s, completed⟩ hc]
    | false =>
      cases hp : newDate host s with
      | none => simp [isOverdue, tryBlock, hp]
      | some t0 =>
        have hgt : dateGt t (setHours host t0 23 59 59 999)
            = dateGt (t - tickDelay) (setHours host t0 23 59 59 999) := by
          simp only [setHours, timeClip]
          split
          · rfl
          · simp only [dateGt, decide_eq_decide]
            simp only [getHours, getMinutes, localTime, Host.localTZA, msPerHour,
              msPerMinute] at hg
            simp only [utcTime, makeDate, makeTime, day, localTime, Host.localTZA, msPerDay,
              msPerMinute, msPerHour, tickDelay]
            omega
        rw [isOverdue_of_parsed host t id s completed t0 hc hp,
          isOverdue_of_parsed host (t - tickDelay) id s completed t0 hc hp, hgt]

theorem tickTime_succ (start : Int) (n : Nat) :
    tickTime start (n + 1) - tickDelay = tickTime start n := by
  simp only [tickTime]
  push_cast
  ring

theorem tickTime_zero (start : Int) : tickTime start 0 = start := by
  simp [tickTime]

/-- When the status at the first render is the status at the start of the interval, the
gated view is, after every tick, mounted with the registrations of its mount and shows the
status that `isOverdue` computes at the moment of that tick. -/
theorem gatedView_shown (host : Host) (todo : Todo) (render start : Int)
    (hrs : isOverdue host render todo = isOverdue host start todo) (n : Nat) :
    registered (gatedView host todo render start n).world ∧
    (∃ h, (gatedView host todo render start n).world.mounted = some h) ∧
    (gatedView host todo render start n).shown = isOverdue host (tickTime start n) todo := by
  induction n with
  | zero =>
    refine ⟨registered_step host World.init .mount registered_init, ?_, ?_⟩
    · simp [gatedView, firstRender, step, World.init, runEffect]
    · rw [tickTime_zero]
      exact hrs
  | succ n ih =>
    obtain ⟨hreg, ⟨h, hm⟩, hshown⟩ := ih
    have hstep := step_tick_of_mounted host _ (tickTime start (n + 1)) h hreg hm
    by_cases hg : getHours host (tickTime start (n + 1)) = 0 ∧
        getMinutes host (tickTime start (n + 1)) = 0
    · have hw : step host (gatedView host todo render start n).world
            (.tick (tickTime start (n + 1)))
          = bumpKey (gatedView host todo render start n).world := by
        rw [hstep, intervalCallback, if_pos hg]
      have hv : gatedView host todo render start (n + 1)
          = ⟨bumpKey (gatedView host todo render start n).world,
              isOverdue host (tickTime start (n + 1)) todo⟩ := by
        simp [gatedView, tickRender, hw, bumpKey]
      rw [hv]
      exact ⟨registered_of_frame _ _ hreg (bumpKey_frame _), ⟨h, hm⟩, rfl⟩
    · have hw : step host (gatedView host todo render start n).world
            (.tick (tickTime start (n + 1)))
          = (gatedView host todo render start n).world := by
        rw [hstep, intervalCallback, if_neg hg]
      have hv : gatedView host todo render start (n + 1)
          = ⟨(gatedView host todo render start n).world,
              (gatedView host todo render start n).shown⟩ := by
        simp [gatedView, tickRender, hw]
      rw [hv]
      refine ⟨hreg, ⟨h, hm⟩, ?_⟩
      show (gatedView host todo render start n).shown
        = isOverdue host (tickTime start (n + 1)) todo
      rw [hshown, isOverdue_tick_stable host (tickTime start (n + 1)) todo hg,
        tickTime_succ]

/-- Under the same condition the gated view shows after every tick what recomputing on
every tick shows. -/
theorem gatedView_eq_everyTick (host : Host) (todo : Todo) (render start : Int)
    (hrs : isOverdue host render todo = isOverdue host start todo) (n : Nat) :
    (gatedView host todo render start n).shown = everyTickShown host todo render start n := by
  cases n with
  | zero => rfl
  | succ n => exact (gatedView_shown host todo render start hrs (n + 1)).2.2

/-- C11: the interval is started with a delay of 60000 ms, so consecutive ticks are 60000 ms
apart; while the list is mounted a tick increments `forceUpdateKey` by 1 if and only if the
local hour and the local minute of the tick are both 0, and every other tick leaves the
whole state unchanged. -/
theorem tick_recomputes_at_midnight (host : Host) (es : List Event) (now : Int)
    (hm : (run host World.init es).mounted.isSome = true) :
    tickDelay = 60000 ∧
    (∀ start n, tickTime start (n + 1) - tickTime start n = 60000) ∧
    ((step host (run host World.init es) (.tick now)).forceUpdateKey
        = (run host World.init es).forceUpdateKey + 1
      ↔ getHours host now = 0 ∧ getMinutes host now = 0) ∧
    (getHours host now = 0 ∧ getMinutes host now = 0 →
      step host (run host World.init es) (.tick now) = bumpKey (run host World.init es)) ∧
    (¬ (getHours host now = 0 ∧ getMinutes host now = 0) →
      step host (run host World.init es) (.tick now) = run host World.init es) := by
  have hreg := registered_run host es World.init registered_init
  cases hw : (run host World.init es).mounted with
  | none => simp [hw] at hm
  | some hd =>
    have hstep := step_tick_of_mounted host _ now hd hreg hw
    refine ⟨rfl, ?_, ?_, ?_, ?_⟩
    · intro start n
      simp only [tickTime, tickDelay]
      push_cast
      ring
    · rw [hstep, intervalCallback]
      by_cases hg : getHours host now = 0 ∧ getMinutes host now = 0
      · simp [hg, bumpKey]
      · simp [hg]
    · intro hg
      rw [hstep, intervalCallback, if_pos hg]
    · intro hg
      rw [hstep, intervalCallback, if_neg hg]

/-- Witness of C11: five hours west of UTC, the tick at 2025-11-13T05:00:00Z (00:00 local
time) on a freshly mounted list raises `forceUpdateKey` from 0 to 1. -/
theorem tick_recomputes_at_midnight_witness :
    (step hostWest5 (run hostWest5 World.init [.mount]) (.tick midnightWest5)).forceUpdateKey
      = 1 :=
  (tick_recomputes_at_midnight hostWest5 [.mount] midnightWest5 (by decide)).2.2.1.mpr
    (by decide)

/-- C12 (the claim as stated fails): at UTC, the incomplete todo due "2025-11-12" is first
rendered at 23:59:59.990 on 12 November and the effect starts the interval 15 ms later, at
00:00:00.005 on 13 November.  The first tick, at 00:01:00.005, finds minute 1, so the gate
does not fire: the gated view still shows not overdue, with `forceUpdateKey` 0, where
recomputing on every tick shows overdue. -/
theorem gate_misses_midnight_before_interval_start :
    (gatedView hostUTC ⟨.text "7", .str "2025-11-12", .bool false⟩
        (midnight13Nov2025 - 10) (midnight13Nov2025 + 5) 1).shown = ⟨.returned false, []⟩ ∧
    (gatedView hostUTC ⟨.text "7", .str "2025-11-12", .bool false⟩
        (midnight13Nov2025 - 10) (midnight13Nov2025 + 5) 1).world.forceUpdateKey = 0 ∧
    everyTickShown hostUTC ⟨.text "7", .str "2025-11-12", .bool false⟩
        (midnight13Nov2025 - 10) (midnight13Nov2025 + 5) 1 = ⟨.returned true, []⟩ := by
  decide

/-- C12 (amended): at a tick whose local hour and minute are not 00:00 the outcome of
`isOverdue` is the one it had 60000 ms earlier, at the previous tick; hence, with ticks
60000 ms apart, and provided the status computed at the first render is the status at the
moment the interval is started, the view that recomputes only when the gate fires shows
after every tick the status that recomputing on every tick shows. -/
theorem gate_loses_no_status_change_between_ticks (host : Host) (todo : Todo)
    (t render start : Int) (n : Nat) :
    (¬ (getHours host t = 0 ∧ getMinutes host t = 0) →
      isOverdue host t todo = isOverdue host (t - 60000) todo) ∧
    (isOverdue host render todo = isOverdue host start todo →
      (gatedView host todo render start n).shown
        = everyTickShown host todo render start n) :=
  ⟨fun hg => isOverdue_tick_stable host t todo hg,
    fun hrs => gatedView_eq_everyTick host todo render start hrs n⟩

/-- Witness of C12 (amended): five hours west of UTC, for the todo due "2025-11-13", the tick
at 00:01 local time on 13 November gives the outcome of the tick at 00:00; and a list
rendered at 23:57:59.990 local time whose interval starts 15 ms later shows after three
ticks, the third at 00:01:00.005, what recomputing on every tick shows. -/
theorem gate_loses_no_status_change_between_ticks_witness :
    isOverdue hostWest5 (midnightWest5 + 60000) ⟨.text "8", .str "2025-11-13", .bool false⟩
      = isOverdue hostWest5 (midnightWest5 + 60000 - 60000)
          ⟨.text "8", .str "2025-11-13", .bool false⟩ ∧
    (gatedView hostWest5 ⟨.text "8", .str "2025-11-13", .bool false⟩
        (midnightWest5 - 120010) (midnightWest5 - 119995) 3).shown
      = everyTickShown hostWest5 ⟨.text "8", .str "2025-11-13", .bool false⟩
          (midnightWest5 - 120010) (midnightWest5 - 119995) 3 :=
  ⟨(gate_loses_no_status_change_between_ticks hostWest5
      ⟨.text "8", .str "2025-11-13", .bool false⟩
      (midnightWest5 + 60000) (midnightWest5 - 120010) (midnightWest5 - 119995) 3).1
      (by decide),
    (gate_loses_no_status_change_between_ticks hostWest5
      ⟨.text "8", .str "2025-11-13", .bool false⟩
      (midnightWest5 + 60000) (midnightWest5 - 120010) (midnightWest5 - 119995) 3).2
      (by decide)⟩

end TodoApp
